import Mathlib

/-!
Shallow embedding of the gesture-control application
(`src/gesture_control_app.py`) for checking its specification.

Coordinates are normalized image-space positions; we model them as
rationals (`ℚ`).  Values of the Python clock `time.time()` are also
modelled as `ℚ`.  The OS input-injection layer (`pyautogui`) is modelled
as a trace of `Action` values emitted by each call; the mutable
attributes of `GestureControlApp` that survive across frames form
`SessionState`.

The only non-rational computation in the gesture logic is the pinch
distance `((dx)**2 + (dy)**2)**0.5`, which the program uses solely in the
comparison `self.distance < 0.05`.  We store the squared distance
(`dist_sq`) and compare it against `0.05^2 = 1/400`; the lemma
`sqrt_lt_pinch_threshold_iff` below shows this is equivalent to the
comparison made in the source.
-/

namespace GestureApp

/-- One hand keypoint: normalized (x, y) position (the code never reads z). -/
structure Landmark where
  x : ℚ
  y : ℚ
deriving DecidableEq

/-- The ten landmarks of a detected hand that the program reads
(`extract_landmarks` and `process_two_hands` access exactly these). -/
structure Hand where
  thumb_tip : Landmark
  thumb_ip : Landmark
  index_tip : Landmark
  index_pip : Landmark
  middle_tip : Landmark
  middle_pip : Landmark
  ring_tip : Landmark
  ring_pip : Landmark
  little_tip : Landmark
  little_pip : Landmark
deriving DecidableEq

/-- The per-finger extended test `tip.y < joint.y`, used for every finger
in `extract_landmarks` (lines 212-216) and inline in `process_two_hands`. -/
def finger_extended (tipY jointY : ℚ) : Bool :=
  decide (tipY < jointY)

/-- The per-frame attributes set by `extract_landmarks`: five finger flags
plus the pinch measurement (stored squared, see module comment). -/
structure FingerData where
  thumb_extended : Bool
  index_extended : Bool
  middle_extended : Bool
  ring_extended : Bool
  little_extended : Bool
  dist_sq : ℚ
deriving DecidableEq

/-- Embedding of `GestureControlApp.extract_landmarks`: classify the five
fingers and compute the thumb-tip/middle-tip pinch measurement. -/
def extract_landmarks (h : Hand) : FingerData :=
  { thumb_extended := finger_extended h.thumb_tip.y h.thumb_ip.y
    index_extended := finger_extended h.index_tip.y h.index_pip.y
    middle_extended := finger_extended h.middle_tip.y h.middle_pip.y
    ring_extended := finger_extended h.ring_tip.y h.ring_pip.y
    little_extended := finger_extended h.little_tip.y h.little_pip.y
    dist_sq := (h.thumb_tip.x - h.middle_tip.x) ^ 2 +
               (h.thumb_tip.y - h.middle_tip.y) ^ 2 }

/-- The Python builtin `int()` applied to a rational: truncation toward
zero. -/
def pyInt (q : ℚ) : ℤ :=
  if 0 ≤ q then ⌊q⌋ else ⌈q⌉

/-- Mouse buttons for `pyautogui.click`. -/
inductive Button where
  | left
  | right
deriving DecidableEq

/-- Keys used by the zoom key-chord. -/
inductive Key where
  | ctrl
  | plus
  | minus
deriving DecidableEq

/-- One OS input-injection command (one `pyautogui` call).  `eased` marks the
cursor moves issued with a duration/tween argument. -/
inductive Action where
  | moveTo (x y : ℤ) (eased : Bool)
  | scroll (amount : ℤ)
  | hscroll (amount : ℤ)
  | click (b : Button)
  | mouseDown
  | mouseUp
  | keyDown (k : Key)
  | press (k : Key)
  | keyUp (k : Key)
deriving DecidableEq

/-- The cross-frame mutable attributes of `GestureControlApp`. -/
structure SessionState where
  last_click_time : ℚ
  selection_active : Bool
  selection_start : Option (ℤ × ℤ)
  status_message : String
  mode_message : String
deriving DecidableEq

/-- Embedding of `GestureControlApp.__init__`: the session fields at
construction time `t0` (`last_click_time = time.time()`). -/
def initState (t0 : ℚ) : SessionState :=
  { last_click_time := t0
    selection_active := false
    selection_start := none
    status_message := "Gesture Control Ready"
    mode_message := "No hands detected" }

/-- The constant `self.SCROLL_SPEED`. -/
def SCROLL_SPEED : ℤ := 50

/-- The constant `self.CLICK_COOLDOWN` (0.5 s). -/
def CLICK_COOLDOWN : ℚ := 1 / 2

/-- Embedding of `GestureControlApp.process_single_hand`, called with the
finger data `fd` that `extract_landmarks` just derived from `h`; `t` is
the value `time.time()` returns inside the click branches; `sw`, `sh` are
the screen dimensions.  Returns the updated session state and the emitted
actions. -/
def process_single_hand (fd : FingerData) (h : Hand) (t sw sh : ℚ)
    (s : SessionState) : SessionState × List Action :=
  if fd.index_extended && !(fd.middle_extended || fd.ring_extended || fd.little_extended) then
    let cursor_x := pyInt (h.index_tip.x * sw)
    let cursor_y := pyInt (h.index_tip.y * sh + 30)
    ({ s with status_message := "Mouse Control" }, [.moveTo cursor_x cursor_y true])
  else if fd.index_extended && fd.middle_extended && !(fd.ring_extended || fd.little_extended) then
    let hand_y := (h.index_tip.y + h.middle_tip.y) / 2
    if hand_y > 1 / 2 then
      ({ s with status_message := "Scrolling Down" }, [.scroll (-SCROLL_SPEED)])
    else
      ({ s with status_message := "Scrolling Up" }, [.scroll SCROLL_SPEED])
  else if fd.index_extended && fd.little_extended && !(fd.middle_extended || fd.ring_extended) then
    let hand_x := (h.index_tip.x + h.little_tip.x) / 2
    if hand_x > 1 / 2 then
      ({ s with status_message := "Scrolling Right" }, [.hscroll SCROLL_SPEED])
    else
      ({ s with status_message := "Scrolling Left" }, [.hscroll (-SCROLL_SPEED)])
  else if fd.thumb_extended && fd.index_extended && fd.middle_extended &&
          fd.ring_extended && fd.little_extended then
    if t - s.last_click_time ≥ CLICK_COOLDOWN then
      ({ s with last_click_time := t, status_message := "Left Click" }, [.click .left])
    else (s, [])
  else if fd.dist_sq < 1 / 400 then
    if t - s.last_click_time ≥ CLICK_COOLDOWN then
      ({ s with last_click_time := t, status_message := "Right Click" }, [.click .right])
    else (s, [])
  else (s, [])

/-- The test `hand1_all_extended` in `process_two_hands` (lines 276-282). -/
def hand_all_extended (h : Hand) : Bool :=
  finger_extended h.thumb_tip.y h.thumb_ip.y &&
  finger_extended h.index_tip.y h.index_pip.y &&
  finger_extended h.middle_tip.y h.middle_pip.y &&
  finger_extended h.ring_tip.y h.ring_pip.y &&
  finger_extended h.little_tip.y h.little_pip.y

/-- The test `hand2_index_only` in `process_two_hands` (lines 285-290):
index tip strictly above its pip, the other three tips strictly below
theirs. -/
def hand_index_only (h : Hand) : Bool :=
  finger_extended h.index_tip.y h.index_pip.y &&
  decide (h.middle_tip.y > h.middle_pip.y) &&
  decide (h.ring_tip.y > h.ring_pip.y) &&
  decide (h.little_tip.y > h.little_pip.y)

/-- The test `hand2_index_middle` in `process_two_hands` (lines 293-298). -/
def hand_index_middle (h : Hand) : Bool :=
  finger_extended h.index_tip.y h.index_pip.y &&
  finger_extended h.middle_tip.y h.middle_pip.y &&
  decide (h.ring_tip.y > h.ring_pip.y) &&
  decide (h.little_tip.y > h.little_pip.y)

/-- Embedding of `GestureControlApp.process_two_hands` (one invocation). -/
def process_two_hands (hand1 hand2 : Hand) (sw sh : ℚ)
    (s : SessionState) : SessionState × List Action :=
  if hand_all_extended hand1 && hand_index_only hand2 then
    let startActs :=
      if !s.selection_active then
        let start_x := pyInt (hand1.index_tip.x * sw)
        let start_y := pyInt (hand1.index_tip.y * sh)
        ([Action.moveTo start_x start_y false, Action.mouseDown], true,
          "Text Selection Started")
      else ([], s.selection_active, s.status_message)
    let end_x := pyInt (hand2.index_tip.x * sw)
    let end_y := pyInt (hand2.index_tip.y * sh)
    ({ s with selection_active := startActs.2.1,
              status_message := "Text Selection Active" },
      startActs.1 ++ [Action.moveTo end_x end_y false])
  else if s.selection_active then
    ({ s with selection_active := false,
              status_message := "Text Selection Completed" }, [.mouseUp])
  else if hand_all_extended hand1 && hand_index_middle hand2 then
    let fingers_y := (hand2.index_tip.y + hand2.middle_tip.y) / 2
    if fingers_y < 1 / 2 then
      ({ s with status_message := "Zoom In" },
        [.keyDown .ctrl, .press .plus, .keyUp .ctrl])
    else
      ({ s with status_message := "Zoom Out" },
        [.keyDown .ctrl, .press .minus, .keyUp .ctrl])
  else (s, [])

/-- The body of the `for hand_landmarks in results.multi_hand_landmarks`
loop in `process_frame` (lines 169-183): extract the landmarks of the
current hand, then dispatch on the total hand count. -/
def frameStep (hands : List Hand) (t sw sh : ℚ)
    (acc : SessionState × List Action) (h : Hand) : SessionState × List Action :=
  let fd := extract_landmarks h
  if hands.length = 1 then
    let st := { acc.1 with mode_message := "One hand" }
    let r := process_single_hand fd h t sw sh st
    (r.1, acc.2 ++ r.2)
  else if hands.length = 2 then
    match hands with
    | h1 :: h2 :: _ =>
      let st := { acc.1 with mode_message := "Two hands" }
      let r := process_two_hands h1 h2 sw sh st
      (r.1, acc.2 ++ r.2)
    | _ => acc
  else acc

/-- Embedding of `GestureControlApp.process_frame`, restricted to the
gesture logic: reset the mode message, then run the per-hand loop.
`hands` is the list `results.multi_hand_landmarks` (empty when the
detector reports no hands). -/
def process_frame (hands : List Hand) (t sw sh : ℚ)
    (s : SessionState) : SessionState × List Action :=
  hands.foldl (frameStep hands t sw sh)
    ({ s with mode_message := "No hands detected" }, [])

/-- Embedding of `GestureControlApp.cleanup`, restricted to the session
state: release the mouse button iff a selection drag is still active
(lines 357-359). -/
def cleanup (s : SessionState) : SessionState × List Action :=
  if s.selection_active then
    ({ s with selection_active := false }, [.mouseUp])
  else (s, [])

/-- A processed frame: the detected hands and the wall-clock time of the
frame. -/
structure FrameInput where
  hands : List Hand
  t : ℚ
deriving DecidableEq

/-- Run `process_frame` over a sequence of frames, concatenating the
emitted action traces. -/
def runFrames (sw sh : ℚ) : List FrameInput → SessionState → SessionState × List Action
  | [], s => (s, [])
  | f :: fs, s =>
    let r := process_frame f.hands f.t sw sh s
    let rest := runFrames sw sh fs r.1
    (rest.1, r.2 ++ rest.2)

/-- Justification for storing the squared pinch distance: the source
compares `((dx)**2 + (dy)**2)**0.5 < 0.05`, which is equivalent to
`dx^2 + dy^2 < (1/20)^2`. -/
theorem sqrt_lt_pinch_threshold_iff (a b : ℝ) :
    Real.sqrt (a ^ 2 + b ^ 2) < 5 / 100 ↔ a ^ 2 + b ^ 2 < (5 / 100) ^ 2 :=
  Real.sqrt_lt' (by norm_num)

/-! ### Concrete hands used as test inputs -/

/-- Landmark literal. -/
def lm (a b : ℚ) : Landmark := ⟨a, b⟩

/-- A hand with all five fingers extended (every tip above its joint); the
thumb tip and middle tip are far apart, so the pinch test fails. -/
def openHand : Hand :=
  { thumb_tip := lm (1/10) (2/10), thumb_ip := lm (1/10) (6/10)
    index_tip := lm (3/10) (2/10), index_pip := lm (3/10) (6/10)
    middle_tip := lm (5/10) (2/10), middle_pip := lm (5/10) (6/10)
    ring_tip := lm (7/10) (2/10), ring_pip := lm (7/10) (6/10)
    little_tip := lm (9/10) (2/10), little_pip := lm (9/10) (6/10) }

/-- A hand with only the index extended (the other four tips strictly
below their joints), index tip at (1/2, 1/2). -/
def indexHand : Hand :=
  { thumb_tip := lm (1/10) (8/10), thumb_ip := lm (1/10) (4/10)
    index_tip := lm (1/2) (1/2), index_pip := lm (1/2) (6/10)
    middle_tip := lm (5/10) (8/10), middle_pip := lm (5/10) (4/10)
    ring_tip := lm (7/10) (8/10), ring_pip := lm (7/10) (4/10)
    little_tip := lm (9/10) (8/10), little_pip := lm (9/10) (4/10) }

/-- A hand with only the index extended, index tip at (3/10, 2/10). -/
def pointHand : Hand :=
  { thumb_tip := lm (1/10) (8/10), thumb_ip := lm (1/10) (4/10)
    index_tip := lm (3/10) (2/10), index_pip := lm (3/10) (6/10)
    middle_tip := lm (5/10) (8/10), middle_pip := lm (5/10) (4/10)
    ring_tip := lm (7/10) (8/10), ring_pip := lm (7/10) (4/10)
    little_tip := lm (9/10) (8/10), little_pip := lm (9/10) (4/10) }

/-- A hand with index and middle extended, ring and little flexed, both
extended tips in the upper half (tip y = 2/10). -/
def zoomHand : Hand :=
  { thumb_tip := lm (1/10) (8/10), thumb_ip := lm (1/10) (4/10)
    index_tip := lm (3/10) (2/10), index_pip := lm (3/10) (6/10)
    middle_tip := lm (5/10) (2/10), middle_pip := lm (5/10) (6/10)
    ring_tip := lm (7/10) (8/10), ring_pip := lm (7/10) (4/10)
    little_tip := lm (9/10) (8/10), little_pip := lm (9/10) (4/10) }

/-- A hand with index and middle extended, ring and little flexed, and
both extended tips exactly on the midline y = 1/2. -/
def scrollBoundaryHand : Hand :=
  { thumb_tip := lm (1/10) (8/10), thumb_ip := lm (1/10) (4/10)
    index_tip := lm (3/10) (1/2), index_pip := lm (3/10) (6/10)
    middle_tip := lm (5/10) (1/2), middle_pip := lm (5/10) (6/10)
    ring_tip := lm (7/10) (8/10), ring_pip := lm (7/10) (4/10)
    little_tip := lm (9/10) (8/10), little_pip := lm (9/10) (4/10) }

/-- A hand with index and middle extended, ring and little flexed, and
both extended tips at y = 7/10 (average 0.7, lower half). -/
def scrollDownHand : Hand :=
  { thumb_tip := lm (1/10) (8/10), thumb_ip := lm (1/10) (4/10)
    index_tip := lm (3/10) (7/10), index_pip := lm (3/10) (9/10)
    middle_tip := lm (5/10) (7/10), middle_pip := lm (5/10) (9/10)
    ring_tip := lm (7/10) (8/10), ring_pip := lm (7/10) (4/10)
    little_tip := lm (9/10) (8/10), little_pip := lm (9/10) (4/10) }

/-- A session state in which a selection drag is currently held. -/
def dragState : SessionState :=
  { initState 0 with selection_active := true }

/-! ### How `process_frame` decomposes by hand count -/

/-- With a hand count other than one or two, each loop iteration only
refreshes the per-frame landmark attributes, so the fold is constant. -/
theorem frameStep_const (hands : List Hand) (t sw sh : ℚ)
    (h1 : hands.length ≠ 1) (h2 : hands.length ≠ 2) :
    ∀ (l : List Hand) (acc : SessionState × List Action),
      l.foldl (frameStep hands t sw sh) acc = acc := by
  intro l
  induction l with
  | nil => intro acc; rfl
  | cons a l ih =>
    intro acc
    rw [List.foldl_cons]
    have hstep : frameStep hands t sw sh acc a = acc := by
      simp [frameStep, h1, h2]
    rw [hstep]
    exact ih acc

/-- A frame with a hand count other than one or two only resets the mode
message and emits nothing. -/
theorem process_frame_other (hands : List Hand) (t sw sh : ℚ) (s : SessionState)
    (h1 : hands.length ≠ 1) (h2 : hands.length ≠ 2) :
    process_frame hands t sw sh s =
      ({ s with mode_message := "No hands detected" }, []) := by
  rw [process_frame, frameStep_const hands t sw sh h1 h2]

/-- A one-hand frame is a single invocation of `process_single_hand` on the
landmarks just extracted from that hand. -/
theorem process_frame_one (h : Hand) (t sw sh : ℚ) (s : SessionState) :
    process_frame [h] t sw sh s =
      process_single_hand (extract_landmarks h) h t sw sh
        { s with mode_message := "One hand" } := by
  simp only [process_frame, List.foldl_cons, List.foldl_nil, frameStep,
    List.length_cons, List.length_nil]
  norm_num

/-- A two-hand frame invokes `process_two_hands` twice: once for each
iteration of the per-hand loop, threading the session state through. -/
theorem process_frame_two (h1 h2 : Hand) (t sw sh : ℚ) (s : SessionState) :
    process_frame [h1, h2] t sw sh s =
      (let r1 := process_two_hands h1 h2 sw sh { s with mode_message := "Two hands" }
       let r2 := process_two_hands h1 h2 sw sh { r1.1 with mode_message := "Two hands" }
       (r2.1, r1.2 ++ r2.2)) := by
  simp only [process_frame, List.foldl_cons, List.foldl_nil, frameStep,
    List.length_cons, List.length_nil]
  norm_num

/-! ### C8: the per-finger extended test under argument swap -/

/-- C8: the claim that swapping tip.y and joint.y always flips the result
of the extended test fails at tip.y = joint.y = 1/2, where both orders
give not-extended. -/
theorem C8_equal_input_counterexample :
    ¬ (finger_extended (1/2) (1/2) = !finger_extended (1/2) (1/2)) := by
  norm_num [finger_extended]

/-- C8 (amended): extended is a pure function of (tip.y, joint.y), exactly
the one each field of `extract_landmarks` computes; extended in one order
forces not-extended in the swapped order; swapping flips the result
whenever the two inputs differ; and on equal inputs both orders give
not-extended. -/
theorem C8_extended_flip_amended :
    (∀ h : Hand,
       (extract_landmarks h).thumb_extended = finger_extended h.thumb_tip.y h.thumb_ip.y ∧
       (extract_landmarks h).index_extended = finger_extended h.index_tip.y h.index_pip.y ∧
       (extract_landmarks h).middle_extended = finger_extended h.middle_tip.y h.middle_pip.y ∧
       (extract_landmarks h).ring_extended = finger_extended h.ring_tip.y h.ring_pip.y ∧
       (extract_landmarks h).little_extended = finger_extended h.little_tip.y h.little_pip.y) ∧
    (∀ a b : ℚ, finger_extended a b = true → finger_extended b a = false) ∧
    (∀ a b : ℚ, a ≠ b → finger_extended b a = !finger_extended a b) ∧
    (∀ a : ℚ, finger_extended a a = false) := by
  refine ⟨fun h => ⟨rfl, rfl, rfl, rfl, rfl⟩, ?_, ?_, ?_⟩
  · intro a b hab
    simp only [finger_extended, decide_eq_true_eq, decide_eq_false_iff_not] at hab ⊢
    exact not_lt.mpr (le_of_lt hab)
  · intro a b hab
    rcases lt_trichotomy a b with hlt | heq | hgt
    · simp [finger_extended, hlt, not_lt.mpr (le_of_lt hlt)]
    · exact absurd heq hab
    · simp [finger_extended, hgt, not_lt.mpr (le_of_lt hgt)]
  · intro a
    simp [finger_extended]

/-- C8 witness: the amended statements evaluated at 0, 1 and at the equal
pair 1/2, 1/2. -/
theorem C8_extended_flip_witness :
    finger_extended 0 1 = true ∧ finger_extended 1 0 = false ∧
    finger_extended 1 0 = !finger_extended 0 1 ∧
    finger_extended (1/2) (1/2) = false :=
  ⟨by norm_num [finger_extended],
   C8_extended_flip_amended.2.1 0 1 (by norm_num [finger_extended]),
   C8_extended_flip_amended.2.2.1 0 1 (by norm_num),
   C8_extended_flip_amended.2.2.2 (1/2)⟩

/-! ### C3: vertical scroll -/

/-- C3: at an index/middle average y of exactly 1/2 the claim demands a
downward scroll (-50), but the code checks `hand_y > 0.5` and scrolls up
(+50): the qualifying pose on `scrollBoundaryHand` has average y = 1/2 ≥
1/2 yet the frame emits `scroll 50`. -/
theorem C3_boundary_counterexample :
    ((extract_landmarks scrollBoundaryHand).index_extended = true ∧
     (extract_landmarks scrollBoundaryHand).middle_extended = true ∧
     (extract_landmarks scrollBoundaryHand).ring_extended = false ∧
     (extract_landmarks scrollBoundaryHand).little_extended = false) ∧
    (scrollBoundaryHand.index_tip.y + scrollBoundaryHand.middle_tip.y) / 2 ≥ 1 / 2 ∧
    (process_frame [scrollBoundaryHand] 0 1920 1080 (initState 0)).2 =
      [Action.scroll 50] := by
  norm_num [extract_landmarks, finger_extended, scrollBoundaryHand, lm,
    process_frame, frameStep, process_single_hand, initState, SCROLL_SPEED,
    CLICK_COOLDOWN, pyInt]

/-- C3 (amended): in a single-hand frame with index and middle extended
and ring and little flexed, the code scrolls down by 50 iff the average of
the two tip y-coordinates is strictly greater than 1/2, and scrolls up by
50 when the average is at most 1/2. -/
theorem C3_vertical_scroll_amended :
    ∀ (h : Hand) (t sw sh : ℚ) (s : SessionState),
      (extract_landmarks h).index_extended = true →
      (extract_landmarks h).middle_extended = true →
      (extract_landmarks h).ring_extended = false →
      (extract_landmarks h).little_extended = false →
      (((h.index_tip.y + h.middle_tip.y) / 2 > 1 / 2 →
          (process_frame [h] t sw sh s).2 = [Action.scroll (-50)]) ∧
       ((h.index_tip.y + h.middle_tip.y) / 2 ≤ 1 / 2 →
          (process_frame [h] t sw sh s).2 = [Action.scroll 50])) := by
  intro h t sw sh s hidx hmid hring hlit
  rw [process_frame_one]
  constructor
  · intro hgt
    have hgt2 : (2:ℚ)⁻¹ < (h.index_tip.y + h.middle_tip.y) / 2 := by
      rw [← one_div]; exact hgt
    simp [process_single_hand, hidx, hmid, hring, hlit, hgt2, SCROLL_SPEED]
  · intro hle
    have hle2 : ¬ ((2:ℚ)⁻¹ < (h.index_tip.y + h.middle_tip.y) / 2) := by
      rw [← one_div]; exact not_lt.mpr hle
    simp [process_single_hand, hidx, hmid, hring, hlit, hle2, SCROLL_SPEED]

/-- C3 witness: with both tips at y = 7/10 (average 0.7) the frame scrolls
down by 50. -/
theorem C3_vertical_scroll_witness :
    (process_frame [scrollDownHand] 0 1920 1080 (initState 0)).2 =
      [Action.scroll (-50)] := by
  have h := C3_vertical_scroll_amended scrollDownHand 0 1920 1080 (initState 0)
    (by norm_num [extract_landmarks, finger_extended, scrollDownHand, lm])
    (by norm_num [extract_landmarks, finger_extended, scrollDownHand, lm])
    (by norm_num [extract_landmarks, finger_extended, scrollDownHand, lm])
    (by norm_num [extract_landmarks, finger_extended, scrollDownHand, lm])
  exact h.1 (by norm_num [scrollDownHand, lm])

/-! ### C7: cursor mapping in the move branch -/

/-- C7: in a single-hand frame with only the index finger extended (and
nonnegative coordinates and screen dimensions, as the data model
guarantees), the commanded cursor position is the floor of the scaled
index tip, with the fixed +30 vertical offset. -/
theorem C7_cursor_position :
    ∀ (h : Hand) (t sw sh : ℚ) (s : SessionState),
      (extract_landmarks h).index_extended = true →
      (extract_landmarks h).middle_extended = false →
      (extract_landmarks h).ring_extended = false →
      (extract_landmarks h).little_extended = false →
      0 ≤ h.index_tip.x → 0 ≤ h.index_tip.y → 0 ≤ sw → 0 ≤ sh →
      (process_frame [h] t sw sh s).2 =
        [Action.moveTo ⌊h.index_tip.x * sw⌋ ⌊h.index_tip.y * sh + 30⌋ true] := by
  intro h t sw sh s hidx hmid hring hlit hx hy hw hsh
  rw [process_frame_one]
  have e1 : pyInt (h.index_tip.x * sw) = ⌊h.index_tip.x * sw⌋ := by
    rw [pyInt, if_pos (mul_nonneg hx hw)]
  have e2 : pyInt (h.index_tip.y * sh + 30) = ⌊h.index_tip.y * sh + 30⌋ := by
    rw [pyInt, if_pos (add_nonneg (mul_nonneg hy hsh) (by norm_num))]
  simp [process_single_hand, hidx, hmid, hring, hlit, e1, e2]

/-- C7 witness: index tip at (1/2, 1/2) on a 1920 by 1080 screen commands
a move to (960, 570). -/
theorem C7_cursor_position_witness :
    (process_frame [indexHand] 0 1920 1080 (initState 0)).2 =
      [Action.moveTo 960 570 true] := by
  have h := C7_cursor_position indexHand 0 1920 1080 (initState 0)
    (by norm_num [extract_landmarks, finger_extended, indexHand, lm])
    (by norm_num [extract_landmarks, finger_extended, indexHand, lm])
    (by norm_num [extract_landmarks, finger_extended, indexHand, lm])
    (by norm_num [extract_landmarks, finger_extended, indexHand, lm])
    (by norm_num [indexHand, lm]) (by norm_num [indexHand, lm])
    (by norm_num) (by norm_num)
  rw [h]
  norm_num [indexHand, lm]

/-! ### C5: priority order of the single-hand resolver -/

/-- A finger-data value with only the index flag set and a large pinch
measurement. -/
def moveFD : FingerData := ⟨false, true, false, false, false, 1⟩

/-- A finger-data value with all five flags set and pinch measurement 0
(a contrived state satisfying both click conditions at once). -/
def clickFD : FingerData := ⟨true, true, true, true, true, 0⟩

/-- C5: the single-hand resolver picks the first matching branch.  With
only the index extended it commands the cursor move; with all five
extended and the pinch distance below threshold simultaneously, the
left-click branch wins and no right click is ever emitted. -/
theorem C5_priority_order :
    (∀ (fd : FingerData) (h : Hand) (t sw sh : ℚ) (s : SessionState),
       fd.index_extended = true → fd.middle_extended = false →
       fd.ring_extended = false → fd.little_extended = false →
       (process_single_hand fd h t sw sh s).2 =
         [Action.moveTo (pyInt (h.index_tip.x * sw)) (pyInt (h.index_tip.y * sh + 30)) true]) ∧
    (∀ (fd : FingerData) (h : Hand) (t sw sh : ℚ) (s : SessionState),
       fd.thumb_extended = true → fd.index_extended = true →
       fd.middle_extended = true → fd.ring_extended = true →
       fd.little_extended = true → fd.dist_sq < 1 / 400 →
       Action.click Button.right ∉ (process_single_hand fd h t sw sh s).2 ∧
       (t - s.last_click_time ≥ CLICK_COOLDOWN →
         (process_single_hand fd h t sw sh s).2 = [Action.click Button.left])) := by
  constructor
  · intro fd h t sw sh s hidx hmid hring hlit
    simp [process_single_hand, hidx, hmid, hring, hlit]
  · intro fd h t sw sh s hth hidx hmid hring hlit hdist
    constructor
    · by_cases hcd : t - s.last_click_time ≥ CLICK_COOLDOWN <;>
        simp [process_single_hand, hth, hidx, hmid, hring, hlit, hcd]
    · intro hcd
      simp [process_single_hand, hth, hidx, hmid, hring, hlit, hcd]

/-- C5 witness: both priority facts evaluated on concrete inputs. -/
theorem C5_priority_order_witness :
    (process_single_hand moveFD indexHand 0 1920 1080 (initState 0)).2 =
      [Action.moveTo 960 570 true] ∧
    Action.click Button.right ∉
      (process_single_hand clickFD openHand 1 1920 1080 (initState 0)).2 ∧
    (process_single_hand clickFD openHand 1 1920 1080 (initState 0)).2 =
      [Action.click Button.left] := by
  have h1 := C5_priority_order.1 moveFD indexHand 0 1920 1080 (initState 0)
    rfl rfl rfl rfl
  have h2 := C5_priority_order.2 clickFD openHand 1 1920 1080 (initState 0)
    rfl rfl rfl rfl rfl (by norm_num [clickFD])
  refine ⟨?_, h2.1, h2.2 (by norm_num [initState, CLICK_COOLDOWN])⟩
  rw [h1]
  norm_num [indexHand, lm, pyInt]

/-! ### C6: drag start and drag continuation -/

/-- C6: on a qualifying two-hand pose (hand1 all extended, hand2 index
only) with no drag active, one invocation of the two-hand resolver moves
to the mapped index tip of hand1, presses the button, then moves to the
mapped index tip of hand2, and the drag flag becomes true; with the drag
already active it only moves to the mapped index tip of hand2. -/
theorem C6_drag_start_and_continue :
    ∀ (h1 h2 : Hand) (sw sh : ℚ) (s : SessionState),
      hand_all_extended h1 = true → hand_index_only h2 = true →
      ((s.selection_active = false →
         process_two_hands h1 h2 sw sh s =
           ({ s with selection_active := true,
                     status_message := "Text Selection Active" },
            [Action.moveTo (pyInt (h1.index_tip.x * sw)) (pyInt (h1.index_tip.y * sh)) false,
             Action.mouseDown,
             Action.moveTo (pyInt (h2.index_tip.x * sw)) (pyInt (h2.index_tip.y * sh)) false])) ∧
       (s.selection_active = true →
         process_two_hands h1 h2 sw sh s =
           ({ s with selection_active := true,
                     status_message := "Text Selection Active" },
            [Action.moveTo (pyInt (h2.index_tip.x * sw)) (pyInt (h2.index_tip.y * sh)) false]))) := by
  intro h1 h2 sw sh s hall hidx
  constructor <;> intro hsel <;> simp [process_two_hands, hall, hidx, hsel]

/-- C6 witness: the drag-start branch evaluated on concrete hands from the
initial state. -/
theorem C6_drag_start_witness :
    process_two_hands openHand pointHand 1920 1080 (initState 0) =
      ({ initState 0 with selection_active := true,
                          status_message := "Text Selection Active" },
       [Action.moveTo 576 216 false, Action.mouseDown,
        Action.moveTo 576 216 false]) := by
  have h := (C6_drag_start_and_continue openHand pointHand 1920 1080 (initState 0)
    (by norm_num [hand_all_extended, finger_extended, openHand, lm])
    (by norm_num [hand_index_only, finger_extended, pointHand, lm])).1 rfl
  rw [h]
  norm_num [openHand, pointHand, lm, pyInt]

/-! ### C10: which session fields each resolver can touch -/

/-- C10: the single-hand resolver never changes the drag state (selection
flag and anchor) nor the mode message; the two-hand resolver never changes
the click-debounce timestamp, the (never-written) anchor, nor the mode
message.  Each resolver thus mutates only the state of its own branch
plus the status message. -/
theorem C10_state_separation :
    (∀ (fd : FingerData) (h : Hand) (t sw sh : ℚ) (s : SessionState),
       (process_single_hand fd h t sw sh s).1.selection_active = s.selection_active ∧
       (process_single_hand fd h t sw sh s).1.selection_start = s.selection_start ∧
       (process_single_hand fd h t sw sh s).1.mode_message = s.mode_message) ∧
    (∀ (h1 h2 : Hand) (sw sh : ℚ) (s : SessionState),
       (process_two_hands h1 h2 sw sh s).1.last_click_time = s.last_click_time ∧
       (process_two_hands h1 h2 sw sh s).1.selection_start = s.selection_start ∧
       (process_two_hands h1 h2 sw sh s).1.mode_message = s.mode_message) := by
  constructor
  · intro fd h t sw sh s
    unfold process_single_hand
    split_ifs <;> simp [apply_ite]
  · intro h1 h2 sw sh s
    unfold process_two_hands
    split_ifs <;> simp [apply_ite]

/-! ### C1: dispatch count per frame -/

/-- C1: a two-hand frame does not dispatch its decision at most once: the
per-hand loop in `process_frame` invokes `process_two_hands` once per
detected hand, so a frame showing the zoom pose emits the zoom key-chord
twice. -/
theorem C1_two_hand_double_dispatch :
    (process_frame [openHand, zoomHand] 0 1920 1080 (initState 0)).2 =
      [Action.keyDown Key.ctrl, Action.press Key.plus, Action.keyUp Key.ctrl,
       Action.keyDown Key.ctrl, Action.press Key.plus, Action.keyUp Key.ctrl] := by
  norm_num [process_frame, frameStep, process_single_hand, process_two_hands,
    extract_landmarks, finger_extended, hand_all_extended, hand_index_only,
    hand_index_middle, initState, pyInt, SCROLL_SPEED, CLICK_COOLDOWN,
    openHand, zoomHand, lm]

/-! ### Click characterization helpers -/

/-- Any click emitted by the single-hand resolver required the cooldown to
have elapsed, and stamped the debounce timestamp with the current time. -/
theorem single_hand_click_mem (fd : FingerData) (h : Hand) (t sw sh : ℚ)
    (s : SessionState) (b : Button) :
    Action.click b ∈ (process_single_hand fd h t sw sh s).2 →
    CLICK_COOLDOWN ≤ t - s.last_click_time ∧
    (process_single_hand fd h t sw sh s).1.last_click_time = t := by
  simp only [process_single_hand]
  intro hmem
  split_ifs at hmem ⊢ <;> simp_all

/-- The two-hand resolver never emits a click. -/
theorem two_hands_no_click (h1 h2 : Hand) (sw sh : ℚ) (s : SessionState)
    (b : Button) :
    Action.click b ∉ (process_two_hands h1 h2 sw sh s).2 := by
  simp only [process_two_hands]
  split_ifs <;> simp

/-- Any click emitted by a frame, whatever the hand count, required the
cooldown to have elapsed and stamped the timestamp with the frame time. -/
theorem process_frame_click (hands : List Hand) (t sw sh : ℚ)
    (s : SessionState) (b : Button) :
    Action.click b ∈ (process_frame hands t sw sh s).2 →
    CLICK_COOLDOWN ≤ t - s.last_click_time ∧
    (process_frame hands t sw sh s).1.last_click_time = t := by
  match hands with
  | [h] =>
    rw [process_frame_one]
    intro hmem
    exact single_hand_click_mem (extract_landmarks h) h t sw sh _ b hmem
  | [h1, h2] =>
    rw [process_frame_two]
    intro hmem
    rcases List.mem_append.mp hmem with hm | hm
    · exact absurd hm (two_hands_no_click h1 h2 sw sh _ b)
    · exact absurd hm (two_hands_no_click h1 h2 sw sh _ b)
  | [] =>
    rw [process_frame_other [] t sw sh s (by simp) (by simp)]
    intro hmem
    simp at hmem
  | h1 :: h2 :: h3 :: rest =>
    rw [process_frame_other (h1 :: h2 :: h3 :: rest) t sw sh s (by simp)
      (by simp [Nat.succ_ne_zero])]
    intro hmem
    simp at hmem

/-! ### C4: left-click debounce -/

/-- A sequence of single-hand frames all showing hand `h`, at the given
times. -/
def openFrames (h : Hand) (ts : List ℚ) : List FrameInput :=
  ts.map (fun t => ⟨[h], t⟩)

/-- The debounce recurrence: the subsequence of frame times at which a
click fires, starting from the given value of `last_click_time`. -/
def clickTimes (last : ℚ) : List ℚ → List ℚ
  | [] => []
  | t :: ts => if t - last ≥ CLICK_COOLDOWN then t :: clickTimes t ts else clickTimes last ts

/-- An all-extended hand makes a one-hand frame take exactly the left-click
branch: it clicks iff the cooldown has elapsed, updating the timestamp. -/
theorem open_frame_fires (h : Hand) (hall : hand_all_extended h = true)
    (t sw sh : ℚ) (s : SessionState) :
    (t - s.last_click_time ≥ CLICK_COOLDOWN →
       (process_frame [h] t sw sh s).2 = [Action.click Button.left] ∧
       (process_frame [h] t sw sh s).1.last_click_time = t) ∧
    (t - s.last_click_time < CLICK_COOLDOWN →
       (process_frame [h] t sw sh s).2 = [] ∧
       (process_frame [h] t sw sh s).1.last_click_time = s.last_click_time) := by
  have h5 := hall
  simp only [hand_all_extended, Bool.and_eq_true] at h5
  obtain ⟨⟨⟨⟨hth, hidx⟩, hmid⟩, hring⟩, hlit⟩ := h5
  rw [process_frame_one]
  constructor
  · intro hge
    simp [process_single_hand, extract_landmarks, hth, hidx, hmid, hring, hlit, hge]
  · intro hlt
    simp [process_single_hand, extract_landmarks, hth, hidx, hmid, hring, hlit,
      not_le.mpr hlt]

/-- Running an all-extended hand over any time sequence produces exactly
one left click per element of `clickTimes`, and the final timestamp is the
last firing time (or the initial one if none fired). -/
theorem run_open_frames (h : Hand) (hall : hand_all_extended h = true)
    (sw sh : ℚ) :
    ∀ (ts : List ℚ) (s : SessionState),
      (runFrames sw sh (openFrames h ts) s).2 =
        (clickTimes s.last_click_time ts).map (fun _ => Action.click Button.left) := by
  intro ts
  induction ts with
  | nil => intro s; rfl
  | cons t ts ih =>
    intro s
    rw [show openFrames h (t :: ts) = ⟨[h], t⟩ :: openFrames h ts from rfl]
    rw [runFrames, clickTimes]
    by_cases hge : t - s.last_click_time ≥ CLICK_COOLDOWN
    · have hf := (open_frame_fires h hall t sw sh s).1 hge
      rw [if_pos hge]
      simp only [hf.1, ih, hf.2, List.map_cons, List.cons_append, List.nil_append]
    · have hf := (open_frame_fires h hall t sw sh s).2 (not_le.mp hge)
      rw [if_neg hge]
      simp only [hf.1, ih, hf.2, List.nil_append]

/-- The first firing time is at least a cooldown after the initial
timestamp. -/
theorem clickTimes_head_ge (last : ℚ) (ts : List ℚ) :
    ∀ y, (clickTimes last ts).head? = some y → y - last ≥ CLICK_COOLDOWN := by
  induction ts generalizing last with
  | nil => intro y hy; simp [clickTimes] at hy
  | cons t ts ih =>
    intro y hy
    rw [clickTimes] at hy
    by_cases hge : t - last ≥ CLICK_COOLDOWN
    · rw [if_pos hge] at hy
      simp only [List.head?_cons, Option.some.injEq] at hy
      rw [← hy]; exact hge
    · rw [if_neg hge] at hy
      exact ih last y hy

/-- Consecutive firing times are always at least a cooldown apart. -/
theorem clickTimes_chain (last : ℚ) (ts : List ℚ) :
    List.Chain' (fun a b => b - a ≥ CLICK_COOLDOWN) (clickTimes last ts) := by
  induction ts generalizing last with
  | nil => simp [clickTimes]
  | cons t ts ih =>
    rw [clickTimes]
    by_cases hge : t - last ≥ CLICK_COOLDOWN
    · rw [if_pos hge, List.chain'_cons']
      exact ⟨fun y hy => clickTimes_head_ge t ts y hy, ih t⟩
    · rw [if_neg hge]; exact ih last

/-- When every gap (from the initial timestamp on) is at least a cooldown,
every frame fires. -/
theorem clickTimes_all (last : ℚ) (ts : List ℚ)
    (hc : List.Chain (fun a b => b - a ≥ CLICK_COOLDOWN) last ts) :
    clickTimes last ts = ts := by
  induction ts generalizing last with
  | nil => rfl
  | cons t ts ih =>
    rw [List.chain_cons] at hc
    rw [clickTimes, if_pos hc.1, ih t hc.2]

/-- C4: a fully open one-hand frame clicks left iff at least the 0.5 s
cooldown has elapsed since `last_click_time`, updating the timestamp on
fire; over any sequence of such frames the emitted clicks are exactly one
per element of `clickTimes`; consecutive firing times are at least 0.5 s
apart (at most one click per window); and with all gaps at least 0.5 s
every qualifying frame fires. -/
theorem C4_click_debounce :
    (∀ (h : Hand) (t sw sh : ℚ) (s : SessionState),
       hand_all_extended h = true →
       ((t - s.last_click_time ≥ CLICK_COOLDOWN →
           (process_frame [h] t sw sh s).2 = [Action.click Button.left] ∧
           (process_frame [h] t sw sh s).1.last_click_time = t) ∧
        (t - s.last_click_time < CLICK_COOLDOWN →
           (process_frame [h] t sw sh s).2 = [] ∧
           (process_frame [h] t sw sh s).1.last_click_time = s.last_click_time))) ∧
    (∀ (h : Hand) (sw sh : ℚ) (ts : List ℚ) (s : SessionState),
       hand_all_extended h = true →
       (runFrames sw sh (openFrames h ts) s).2 =
         (clickTimes s.last_click_time ts).map (fun _ => Action.click Button.left)) ∧
    (∀ (last : ℚ) (ts : List ℚ),
       List.Chain' (fun a b => b - a ≥ CLICK_COOLDOWN) (clickTimes last ts)) ∧
    (∀ (last : ℚ) (ts : List ℚ),
       List.Chain (fun a b => b - a ≥ CLICK_COOLDOWN) last ts →
       clickTimes last ts = ts) :=
  ⟨fun h t sw sh s hall => open_frame_fires h hall t sw sh s,
   fun h sw sh ts s hall => run_open_frames h hall sw sh ts s,
   clickTimes_chain,
   clickTimes_all⟩

/-- C4 witness: three open-hand frames at times 1, 5/4, 2 from an initial
timestamp 0 click exactly twice (at 1 and 2, skipping the frame 0.25 s
after the first click), and with gaps of at least 0.5 s every frame
fires. -/
theorem C4_click_debounce_witness :
    (runFrames 1920 1080 (openFrames openHand [1, 5/4, 2]) (initState 0)).2 =
      [Action.click Button.left, Action.click Button.left] ∧
    clickTimes 0 [1, 2] = [1, 2] := by
  constructor
  · have h2 := C4_click_debounce.2.1 openHand 1920 1080 [1, 5/4, 2] (initState 0)
      (by norm_num [hand_all_extended, finger_extended, openHand, lm])
    rw [h2]
    norm_num [clickTimes, CLICK_COOLDOWN, initState]
  · exact C4_click_debounce.2.2.2 0 [1, 2]
      (by norm_num [List.chain_cons, CLICK_COOLDOWN])

/-! ### C9: the shared debounce timestamp -/

/-- C9: no click of either button can fire on a frame processed less than
0.5 s after construction, whatever the pose and hand count; more
generally, no click fires within 0.5 s of `last_click_time`, and every
click stamps `last_click_time` with the frame time, so after a click of
either button both buttons are suppressed for the next 0.5 s. -/
theorem C9_shared_debounce :
    (∀ (hands : List Hand) (t0 t sw sh : ℚ),
       t - t0 < CLICK_COOLDOWN →
       ∀ b, Action.click b ∉ (process_frame hands t sw sh (initState t0)).2) ∧
    (∀ (hands : List Hand) (t sw sh : ℚ) (s : SessionState),
       t - s.last_click_time < CLICK_COOLDOWN →
       ∀ b, Action.click b ∉ (process_frame hands t sw sh s).2) ∧
    (∀ (hands : List Hand) (t sw sh : ℚ) (s : SessionState) (b : Button),
       Action.click b ∈ (process_frame hands t sw sh s).2 →
       (process_frame hands t sw sh s).1.last_click_time = t) := by
  refine ⟨?_, ?_, ?_⟩
  · intro hands t0 t sw sh hlt b hmem
    have hinit : (initState t0).last_click_time = t0 := rfl
    have := (process_frame_click hands t sw sh (initState t0) b hmem).1
    rw [hinit] at this
    exact absurd this (not_le.mpr hlt)
  · intro hands t sw sh s hlt b hmem
    exact absurd (process_frame_click hands t sw sh s b hmem).1 (not_le.mpr hlt)
  · intro hands t sw sh s b hmem
    exact (process_frame_click hands t sw sh s b hmem).2

/-- C9 witness: a frame showing the fully open (left-click) pose a quarter
second after construction fires nothing. -/
theorem C9_shared_debounce_witness :
    Action.click Button.left ∉
      (process_frame [openHand] (1/4) 1920 1080 (initState 0)).2 :=
  C9_shared_debounce.1 [openHand] 0 (1/4) 1920 1080
    (by norm_num [CLICK_COOLDOWN]) Button.left

/-! ### C2: drag release discipline -/

/-- The single-hand resolver emits no mouse press or release and leaves the
drag flag unchanged. -/
theorem single_hand_no_updown (fd : FingerData) (h : Hand) (t sw sh : ℚ)
    (s : SessionState) :
    Action.mouseUp ∉ (process_single_hand fd h t sw sh s).2 ∧
    Action.mouseDown ∉ (process_single_hand fd h t sw sh s).2 ∧
    (process_single_hand fd h t sw sh s).1.selection_active = s.selection_active := by
  simp only [process_single_hand]
  split_ifs <;> simp

/-- With the drag active and the qualifying pose absent, one invocation of
the two-hand resolver releases the button and clears the flag. -/
theorem two_hands_release (h1 h2 : Hand) (sw sh : ℚ) (s : SessionState)
    (hsel : s.selection_active = true)
    (hnq : (hand_all_extended h1 && hand_index_only h2) = false) :
    process_two_hands h1 h2 sw sh s =
      ({ s with selection_active := false,
                status_message := "Text Selection Completed" }, [Action.mouseUp]) := by
  simp [process_two_hands, hnq, hsel]

/-- With the drag inactive and the qualifying pose absent, one invocation
of the two-hand resolver emits no release and keeps the flag clear. -/
theorem two_hands_inactive_no_up (h1 h2 : Hand) (sw sh : ℚ) (s : SessionState)
    (hsel : s.selection_active = false)
    (hnq : (hand_all_extended h1 && hand_index_only h2) = false) :
    Action.mouseUp ∉ (process_two_hands h1 h2 sw sh s).2 ∧
    (process_two_hands h1 h2 sw sh s).1.selection_active = false := by
  simp only [process_two_hands, hnq, hsel]
  split_ifs <;> simp_all

/-- Press/release automaton over an action trace: tracks whether a press
is currently unmatched, failing (`none`) on a release with no press held. -/
def upState : Bool → List Action → Option Bool
  | b, [] => some b
  | _, Action.mouseDown :: l => upState true l
  | b, Action.mouseUp :: l => if b then upState false l else none
  | b, _ :: l => upState b l

/-- The automaton is compositional over trace concatenation. -/
theorem upState_append (l1 l2 : List Action) :
    ∀ b, upState b (l1 ++ l2) = (upState b l1).bind (fun c => upState c l2) := by
  induction l1 with
  | nil => intro b; simp [upState]
  | cons a l ih =>
    intro b
    cases a <;> cases b <;> simp [upState, ih]

/-- A trace with no press and no release leaves the automaton unchanged. -/
theorem upState_no_updown :
    ∀ (l : List Action), Action.mouseUp ∉ l → Action.mouseDown ∉ l →
      ∀ b, upState b l = some b := by
  intro l
  induction l with
  | nil => intro _ _ b; rfl
  | cons a l ih =>
    intro hup hdn b
    have hup2 : Action.mouseUp ∉ l := fun hc => hup (List.mem_cons_of_mem a hc)
    have hdn2 : Action.mouseDown ∉ l := fun hc => hdn (List.mem_cons_of_mem a hc)
    cases a
    case mouseDown => exact absurd (List.mem_cons_self _ _) hdn
    case mouseUp => exact absurd (List.mem_cons_self _ _) hup
    all_goals simp only [upState]; exact ih hup2 hdn2 b

/-- One invocation of the two-hand resolver moves the automaton from the
old drag flag to the new one. -/
theorem two_hands_upState (h1 h2 : Hand) (sw sh : ℚ) (s : SessionState) :
    upState s.selection_active (process_two_hands h1 h2 sw sh s).2 =
      some (process_two_hands h1 h2 sw sh s).1.selection_active := by
  simp only [process_two_hands]
  split_ifs <;> simp_all [upState]

/-- A single-hand dispatch moves the automaton from the old drag flag to
the (unchanged) new one. -/
theorem single_hand_upState (fd : FingerData) (h : Hand) (t sw sh : ℚ)
    (s : SessionState) :
    upState s.selection_active (process_single_hand fd h t sw sh s).2 =
      some (process_single_hand fd h t sw sh s).1.selection_active := by
  obtain ⟨hu, hd, hsel⟩ := single_hand_no_updown fd h t sw sh s
  rw [upState_no_updown _ hu hd, hsel]

/-- Any frame moves the automaton from the old drag flag to the new one:
every release in its trace matches a press or the held drag. -/
theorem process_frame_upState (hands : List Hand) (t sw sh : ℚ)
    (s : SessionState) :
    upState s.selection_active (process_frame hands t sw sh s).2 =
      some (process_frame hands t sw sh s).1.selection_active := by
  match hands with
  | [] =>
    rw [process_frame_other [] t sw sh s (by simp) (by simp)]
    rfl
  | [h] =>
    rw [process_frame_one]
    exact single_hand_upState (extract_landmarks h) h t sw sh
      { s with mode_message := "One hand" }
  | [h1, h2] =>
    rw [process_frame_two]
    simp only
    rw [upState_append]
    have e1 := two_hands_upState h1 h2 sw sh { s with mode_message := "Two hands" }
    rw [show ({ s with mode_message := "Two hands" } : SessionState).selection_active =
      s.selection_active from rfl] at e1
    rw [e1]
    simp only [Option.some_bind]
    exact two_hands_upState h1 h2 sw sh
      { (process_two_hands h1 h2 sw sh { s with mode_message := "Two hands" }).1 with
        mode_message := "Two hands" }
  | h1 :: h2 :: h3 :: rest =>
    rw [process_frame_other (h1 :: h2 :: h3 :: rest) t sw sh s (by simp) (by simp)]
    rfl

/-- Over any run of frames the automaton never fails and tracks the drag
flag. -/
theorem runFrames_upState (sw sh : ℚ) :
    ∀ (fs : List FrameInput) (s : SessionState),
      upState s.selection_active (runFrames sw sh fs s).2 =
        some (runFrames sw sh fs s).1.selection_active := by
  intro fs
  induction fs with
  | nil => intro s; rfl
  | cons f fs ih =>
    intro s
    simp only [runFrames]
    rw [upState_append, process_frame_upState]
    simp only [Option.some_bind]
    exact ih _

/-- Cleanup drives the automaton to the released state. -/
theorem cleanup_upState (s : SessionState) :
    upState s.selection_active (cleanup s).2 = some false ∧
    (cleanup s).1.selection_active = false := by
  by_cases hsel : s.selection_active <;> simp [cleanup, hsel, upState]

/-- Splitting a successful trace at a release: the prefix reaches the held
state and the suffix continues from the released state. -/
theorem upState_up_split (l : List Action) (b b' : Bool)
    (hs : upState b l = some b') :
    ∀ l1 l2, l = l1 ++ Action.mouseUp :: l2 →
      upState b l1 = some true ∧ upState false l2 = some b' := by
  intro l1 l2 heq
  subst heq
  rw [upState_append] at hs
  cases hc : upState b l1 with
  | none => rw [hc] at hs; simp at hs
  | some c =>
    rw [hc] at hs
    simp only [Option.some_bind] at hs
    cases c with
    | false => simp [upState] at hs
    | true => exact ⟨rfl, by simpa [upState] using hs⟩

/-- Reaching the held state from the released state requires a press. -/
theorem upState_reach_true (l : List Action) :
    upState false l = some true → Action.mouseDown ∈ l := by
  induction l with
  | nil => intro hl; simp [upState] at hl
  | cons a l ih =>
    intro hl
    cases a <;> simp_all [upState, List.mem_cons]

/-- In any trace accepted by the automaton, two releases always have a
press strictly between them. -/
theorem no_double_release (l : List Action) (b b' : Bool)
    (hs : upState b l = some b') :
    ∀ l1 l2 l3, l = l1 ++ Action.mouseUp :: l2 ++ Action.mouseUp :: l3 →
      Action.mouseDown ∈ l2 := by
  intro l1 l2 l3 heq
  have heq2 : l = l1 ++ Action.mouseUp :: (l2 ++ Action.mouseUp :: l3) := by
    rw [heq]; simp
  have h1 := upState_up_split l b b' hs l1 (l2 ++ Action.mouseUp :: l3) heq2
  have h2 := upState_up_split _ false b' h1.2 l2 l3 rfl
  exact upState_reach_true l2 h2.1

/-- C2: a one-hand frame processed while a drag is held issues no release
and leaves the drag active, contradicting the claim that any subsequent
frame lacking the qualifying two-hand pose (including one-hand frames)
issues exactly one release and clears the flag. -/
theorem C2_one_hand_counterexample :
    Action.mouseUp ∉ (process_frame [pointHand] 0 1920 1080 dragState).2 ∧
    (process_frame [pointHand] 0 1920 1080 dragState).1.selection_active = true := by
  have htr : (process_frame [pointHand] 0 1920 1080 dragState).2 =
      [Action.moveTo 576 246 true] := by
    norm_num [process_frame, frameStep, process_single_hand, extract_landmarks,
      finger_extended, pointHand, lm, dragState, initState, pyInt]
  refine ⟨?_, ?_⟩
  · rw [htr]; simp
  · norm_num [process_frame, frameStep, process_single_hand, extract_landmarks,
      finger_extended, pointHand, lm, dragState, initState, pyInt]

/-- C2 (amended): while a drag is held, a two-hand frame lacking the
qualifying pose issues exactly one release and clears the flag; frames
with any other hand count issue no release and leave the drag held; the
shutdown cleanup issues exactly one release; and in the trace of any run
followed by cleanup, no two releases ever occur without a press between
them. -/
theorem C2_drag_release_amended :
    (∀ (h1 h2 : Hand) (t sw sh : ℚ) (s : SessionState),
       s.selection_active = true →
       ¬(hand_all_extended h1 = true ∧ hand_index_only h2 = true) →
       (process_frame [h1, h2] t sw sh s).2.count Action.mouseUp = 1 ∧
       (process_frame [h1, h2] t sw sh s).1.selection_active = false) ∧
    (∀ (hands : List Hand) (t sw sh : ℚ) (s : SessionState),
       hands.length ≠ 2 → s.selection_active = true →
       Action.mouseUp ∉ (process_frame hands t sw sh s).2 ∧
       (process_frame hands t sw sh s).1.selection_active = true) ∧
    (∀ s : SessionState, s.selection_active = true →
       cleanup s = ({ s with selection_active := false }, [Action.mouseUp])) ∧
    (∀ (sw sh : ℚ) (fs : List FrameInput) (s₀ : SessionState)
       (l1 l2 l3 : List Action),
       (runFrames sw sh fs s₀).2 ++ (cleanup (runFrames sw sh fs s₀).1).2 =
         l1 ++ Action.mouseUp :: l2 ++ Action.mouseUp :: l3 →
       Action.mouseDown ∈ l2) := by
  refine ⟨?_, ?_, ?_, ?_⟩
  · intro h1 h2 t sw sh s hsel hnq
    have hnq2 : (hand_all_extended h1 && hand_index_only h2) = false := by
      rw [Bool.eq_false_iff]
      exact fun hc => hnq (by simpa [Bool.and_eq_true] using hc)
    rw [process_frame_two]
    have e1 := two_hands_release h1 h2 sw sh { s with mode_message := "Two hands" }
      hsel hnq2
    simp only [e1]
    have e2 := two_hands_inactive_no_up h1 h2 sw sh
      ({ s with selection_active := false,
                status_message := "Text Selection Completed",
                mode_message := "Two hands" }) rfl hnq2
    constructor
    · rw [List.count_append]
      rw [List.count_eq_zero.mpr e2.1]
      rfl
    · exact e2.2
  · intro hands t sw sh s hlen hsel
    match hands with
    | [] =>
      rw [process_frame_other [] t sw sh s (by simp) (by simp)]
      simp [hsel]
    | [h] =>
      rw [process_frame_one]
      obtain ⟨hu, _, he⟩ := single_hand_no_updown (extract_landmarks h) h t sw sh
        { s with mode_message := "One hand" }
      exact ⟨hu, by rw [he]; exact hsel⟩
    | [h1, h2] => exact absurd rfl hlen
    | h1 :: h2 :: h3 :: rest =>
      rw [process_frame_other (h1 :: h2 :: h3 :: rest) t sw sh s (by simp) (by simp)]
      simp [hsel]
  · intro s hsel
    simp [cleanup, hsel]
  · intro sw sh fs s₀ l1 l2 l3 heq
    have hrun := runFrames_upState sw sh fs s₀
    have hcl := cleanup_upState (runFrames sw sh fs s₀).1
    have hfull : upState s₀.selection_active
        ((runFrames sw sh fs s₀).2 ++ (cleanup (runFrames sw sh fs s₀).1).2) =
          some false := by
      rw [upState_append, hrun]
      simp only [Option.some_bind]
      exact hcl.1
    exact no_double_release _ _ _ hfull l1 l2 l3 heq

/-- C2 witness: with a drag held, a two-hand frame showing the zoom pose
(hand2 no longer index-only) releases exactly once and clears the flag. -/
theorem C2_drag_release_witness :
    (process_frame [openHand, zoomHand] 0 1920 1080 dragState).2.count
        Action.mouseUp = 1 ∧
    (process_frame [openHand, zoomHand] 0 1920 1080 dragState).1.selection_active =
      false :=
  C2_drag_release_amended.1 openHand zoomHand 0 1920 1080 dragState rfl
    (by
      intro hc
      have h2 := hc.2
      norm_num [hand_index_only, finger_extended, zoomHand, lm] at h2)

end GestureApp
